import Mathlib

/-!
Verification of the decode driver in `src/sample04_decoding.c`.

The program is a linear sequence of calls into a media-decoding library
(open container, probe, select streams, open decoders, read packets,
decode, print, release).  The library itself is opaque; its outcomes
(whether the open succeeds, what each read returns, what each decode
returns) are inputs of the model.  Every control-flow decision of the C
code is translated literally, including the condition on line 97 of the
source, which tests `a_index < 0 && a_index < 0`.
-/

namespace Sample04

/-- The `codec_type` of a stream (`AVMEDIA_TYPE_*`). -/
inductive MediaType where
  | video
  | audio
  | subtitleK
  | dataK
  | unknown
  deriving DecidableEq

/-- One stream descriptor of the opened container, together with the
library outcomes that `open_decoder` observes for it: whether
`avcodec_find_decoder` finds a decoder and whether `avcodec_open2`
succeeds. -/
structure StreamDesc where
  codecType : MediaType
  findOk : Bool
  openOk : Bool
  deriving DecidableEq

/-- `open_decoder` (lines 16-33): returns -1 when no decoder is
registered for the codec id, -2 when `avcodec_open2` fails, 0 on
success. -/
def open_decoder (s : StreamDesc) : Int :=
  if s.findOk = false then -1
  else if s.openOk = false then -2
  else 0

/-- The stream-selection loop of `open_input` (lines 72-95).  `idx` is
the loop counter, `v` and `a` are `inputFile.v_index` and
`inputFile.a_index`.  A failing `open_decoder` call executes `break`
(the remaining list is dropped); a successful one records the current
index. -/
def scanGo : Nat → Int → Int → List StreamDesc → Int × Int
  | _, v, a, [] => (v, a)
  | idx, v, a, s :: rest =>
    if s.codecType = MediaType.video ∧ v < 0 then
      if open_decoder s < 0 then (v, a)
      else scanGo (idx + 1) ((idx : Int)) a rest
    else if s.codecType = MediaType.audio ∧ a < 0 then
      if open_decoder s < 0 then (v, a)
      else scanGo (idx + 1) v ((idx : Int)) rest
    else scanGo (idx + 1) v a rest

/-- The whole scan, starting from `v_index = a_index = -1` (line 43). -/
def scanStreams (streams : List StreamDesc) : Int × Int :=
  scanGo 0 (-1) (-1) streams

/-- Result of `open_input` (lines 37-104): -1 open failure, -2 probe
failure, -3 the "no stream" path, 0 success.  The selected indices are
carried along where the code has set them. -/
inductive OpenResult where
  | openFail
  | probeFail
  | noStream (v a : Int)
  | ok (v a : Int)
  deriving DecidableEq

/-- `open_input`: `openOk` is the outcome of `avformat_open_input`,
`probeOk` the outcome of `avformat_find_stream_info`.  The final test
reproduces line 97 of the source literally:
`if(inputFile.a_index < 0 && inputFile.a_index < 0)` — both conjuncts
read `a_index`; `v_index` is never consulted. -/
def open_input (openOk probeOk : Bool) (streams : List StreamDesc) : OpenResult :=
  if openOk = false then OpenResult.openFail
  else if probeOk = false then OpenResult.probeFail
  else
    let r := scanStreams streams
    if r.2 < 0 ∧ r.2 < 0 then OpenResult.noStream r.1 r.2
    else OpenResult.ok r.1 r.2

/-- What one call of `release` (lines 106-122) does: whether
`avformat_close_input` ran and which stream indices had
`avcodec_close` called on them. -/
structure ReleaseEffect where
  containerClosed : Bool
  closedDecoders : List Nat
  deriving DecidableEq

/-- 2^32, the modulus of `unsigned int`. -/
def UINT_MOD : Int := 4294967296

/-- The comparison `index == inputFile.v_index` on line 114: `index` is
an `unsigned int`, the selected index an `int`, so the usual arithmetic
conversions compare both modulo 2^32. -/
def uintEq (i : Nat) (x : Int) : Bool :=
  decide ((i : Int) % UINT_MOD = x % UINT_MOD)

/-- `release`: a no-op when `fmt_ctx` is NULL; otherwise closes the
decoder of every loop index that compares equal (as `unsigned int`) to
`v_index` or `a_index`, then closes the container. -/
def release (fmtOpen : Bool) (nbStreams : Nat) (v a : Int) : ReleaseEffect :=
  if fmtOpen then
    { containerClosed := true
      closedDecoders :=
        (List.range nbStreams).filter (fun i => uintEq i v || uintEq i a) }
  else
    { containerClosed := false, closedDecoders := [] }

/-- The empty release effect. -/
def noRelease : ReleaseEffect := { containerClosed := false, closedDecoders := [] }

/-- `AVERROR_EOF = FFERRTAG('E','O','F',' ')`. -/
def AVERROR_EOF : Int := -541478725

/-- One `av_read_frame` call and (if the packet gets that far) the
library outcomes of decoding it: the read return value, the packet's
stream index, the return value of `avcodec_decode_video2` /
`avcodec_decode_audio4`, whether `got_frame` was set, and the
`codec_type` of the stream the packet belongs to. -/
structure ReadEvent where
  ret : Int
  streamIndex : Int
  decodeRet : Int
  gotFrame : Bool
  kind : MediaType
  deriving DecidableEq

/-- An output line of the program, by its format string. -/
inductive Line where
  | usage
  | couldNotOpen
  | failedRetrieveInfo
  | separator
  | videoSize
  | videoSAR
  | audioSamples
  | audioChannels
  | endOfFrame
  deriving DecidableEq

/-- Observable state of the decode loop: output so far and call
counters. -/
structure LoopCounters where
  output : List Line
  decodeCalls : Nat
  rescaleCalls : Nat
  videoBlocks : Nat
  audioBlocks : Nat
  pktFreed : Nat
  frameUnrefs : Nat
  deriving DecidableEq

/-- Counters at loop entry. -/
def initCounters : LoopCounters :=
  { output := [], decodeCalls := 0, rescaleCalls := 0, videoBlocks := 0
    audioBlocks := 0, pktFreed := 0, frameUnrefs := 0 }

/-- The body of the `while(1)` loop (lines 200-240) for a packet that
was read (i.e. after the `AVERROR_EOF` test): route the packet, rescale
and decode it if it belongs to a selected stream, print a report block
when `ret >= 0 && got_frame`, and free the packet. -/
def loopStep (v a : Int) (c : LoopCounters) (e : ReadEvent) : LoopCounters :=
  if e.streamIndex ≠ v ∧ e.streamIndex ≠ a then
    { c with pktFreed := c.pktFreed + 1 }
  else
    let c1 := { c with rescaleCalls := c.rescaleCalls + 1
                       decodeCalls := c.decodeCalls + 1 }
    let c2 :=
      if 0 ≤ e.decodeRet ∧ e.gotFrame = true then
        if e.kind = MediaType.video then
          { c1 with output := c1.output ++ [Line.separator, Line.videoSize, Line.videoSAR]
                    videoBlocks := c1.videoBlocks + 1
                    frameUnrefs := c1.frameUnrefs + 1 }
        else
          { c1 with output := c1.output ++ [Line.separator, Line.audioSamples, Line.audioChannels]
                    audioBlocks := c1.audioBlocks + 1
                    frameUnrefs := c1.frameUnrefs + 1 }
      else c1
    { c2 with pktFreed := c2.pktFreed + 1 }

/-- The `while(1)` loop (lines 190-241) over a list of read events.
The loop exits (printing "End of frame") exactly when a read returns
`AVERROR_EOF`; the Boolean of the result records whether that happened
within the given events. -/
def decodeLoop (v a : Int) (c : LoopCounters) : List ReadEvent → LoopCounters × Bool
  | [] => (c, false)
  | e :: rest =>
    if e.ret = AVERROR_EOF then
      ({ c with output := c.output ++ [Line.endOfFrame] }, true)
    else decodeLoop v a (loopStep v a c e) rest

/-- Whether the loop body routes the event's packet to a decoder
(line 200: the packet's stream index equals a selected index). -/
def isRouted (v a : Int) (e : ReadEvent) : Bool :=
  decide (e.streamIndex = v) || decide (e.streamIndex = a)

/-- Whether a read did not return end-of-stream. -/
def notEofEv (e : ReadEvent) : Bool := decide (e.ret ≠ AVERROR_EOF)

/-- Everything outside the program's control that determines one run:
the presence of the CLI argument and the library outcomes. -/
structure RunInput where
  hasArg : Bool
  openOk : Bool
  probeOk : Bool
  streams : List StreamDesc
  frameAllocOk : Bool
  events : List ReadEvent

/-- Observable trace of one run of `main`. -/
structure RunTrace where
  output : List Line
  exitCode : Int
  releaseCalls : Nat
  releaseEff : ReleaseEffect
  frameFreed : Bool
  completed : Bool
  loopC : LoopCounters
  deriving DecidableEq

/-- `main` (lines 151-249).  The missing-argument path returns 0
directly without reaching `main_end`; every other path ends in exactly
one `release()` call.  On the open-failure path `avformat_open_input`
has left `fmt_ctx` NULL, so `release` runs on an unopened container.
The frame-allocation failure jumps to `main_end` without printing.  A
run that enters the loop completes only if some read returns
`AVERROR_EOF`. -/
def runMain (inp : RunInput) : RunTrace :=
  if inp.hasArg = false then
    { output := [Line.usage], exitCode := 0, releaseCalls := 0
      releaseEff := noRelease, frameFreed := false, completed := true
      loopC := initCounters }
  else
    match open_input inp.openOk inp.probeOk inp.streams with
    | OpenResult.openFail =>
      { output := [Line.couldNotOpen], exitCode := 0, releaseCalls := 1
        releaseEff := release false inp.streams.length (-1) (-1)
        frameFreed := false, completed := true, loopC := initCounters }
    | OpenResult.probeFail =>
      { output := [Line.failedRetrieveInfo], exitCode := 0, releaseCalls := 1
        releaseEff := release true inp.streams.length (-1) (-1)
        frameFreed := false, completed := true, loopC := initCounters }
    | OpenResult.noStream v a =>
      { output := [Line.failedRetrieveInfo], exitCode := 0, releaseCalls := 1
        releaseEff := release true inp.streams.length v a
        frameFreed := false, completed := true, loopC := initCounters }
    | OpenResult.ok v a =>
      if inp.frameAllocOk = false then
        { output := [], exitCode := 0, releaseCalls := 1
          releaseEff := release true inp.streams.length v a
          frameFreed := false, completed := true, loopC := initCounters }
      else
        let r := decodeLoop v a initCounters inp.events
        { output := r.1.output, exitCode := 0, releaseCalls := 1
          releaseEff := release true inp.streams.length v a
          frameFreed := r.2, completed := r.2, loopC := r.1 }

/-- A read event for a decodable video packet on stream 0. -/
def videoPktEvent : ReadEvent :=
  { ret := 0, streamIndex := 0, decodeRet := 1, gotFrame := true
    kind := MediaType.video }

/-- The end-of-stream read. -/
def eofEvent : ReadEvent :=
  { ret := AVERROR_EOF, streamIndex := 0, decodeRet := 0, gotFrame := false
    kind := MediaType.video }

/-- The C2 scenario: one video stream whose decoder opens, no audio
stream, 2 seconds at 25 fps = 50 decodable packets, then end of
stream. -/
def c2Input : RunInput :=
  { hasArg := true, openOk := true, probeOk := true
    streams := [{ codecType := MediaType.video, findOk := true, openOk := true }]
    frameAllocOk := true
    events := List.replicate 50 videoPktEvent ++ [eofEvent] }

/-- The C7 counterexample scenario: an audio stream is selected (so the
line-97 test passes), then `av_frame_alloc` fails. -/
def c7Input : RunInput :=
  { hasArg := true, openOk := true, probeOk := true
    streams := [{ codecType := MediaType.audio, findOk := true, openOk := true }]
    frameAllocOk := false
    events := [] }

/-- A read event on a stream index selected by neither decoder. -/
def unroutedEvent : ReadEvent :=
  { ret := 0, streamIndex := 2, decodeRet := 0, gotFrame := false
    kind := MediaType.unknown }

/-- A routed video packet whose decode call fails (returns -22). -/
def badDecodeEvent : ReadEvent :=
  { ret := 0, streamIndex := 0, decodeRet := -22, gotFrame := false
    kind := MediaType.video }

/-- A packet whose `av_read_frame` call returned the error -5, which
the loop never inspects. -/
def badReadEvent : ReadEvent :=
  { ret := -5, streamIndex := 0, decodeRet := 1, gotFrame := true
    kind := MediaType.video }

/-- A container with an audio stream followed by a video stream, both
with working decoders. -/
def c8Streams : List StreamDesc :=
  [{ codecType := MediaType.audio, findOk := true, openOk := true },
   { codecType := MediaType.video, findOk := true, openOk := true }]

/-- A run whose `avformat_open_input` call fails. -/
def c3Input : RunInput :=
  { hasArg := true, openOk := false, probeOk := true, streams := []
    frameAllocOk := true, events := [] }

end Sample04

namespace Sample04

/-- C1: the claim says `NoStreamError` is reported iff neither an audio
nor a video stream was selected, so a container whose only stream is a
selected video stream must not report it.  The code's line 97 tests
`a_index` in both conjuncts, so this run selects video stream 0
(`v = 0`) and still takes the `NoStreamError` path (return -3). -/
theorem c1_noStream_despite_video_selected :
    open_input true true
      [{ codecType := MediaType.video, findOk := true, openOk := true }]
      = OpenResult.noStream 0 (-1) := by
  decide

/-- C2: on the 2-second, 25 fps, video-only scenario the claim requires
50 "Video :" report blocks and one "End of frame" line.  Because of the
line-97 condition the run never reaches the decode loop: the whole
output is the single "Failed to retrieve input stream information"
line, no video block and no end-of-frame line. -/
theorem c2_video_only_run_never_decodes :
    (runMain c2Input).loopC.videoBlocks = 0 ∧
    (runMain c2Input).output = [Line.failedRetrieveInfo] ∧
    (runMain c2Input).loopC.decodeCalls = 0 := by
  decide

/-- C4: when the scan reaches a candidate stream (video with no video
selected yet, or audio with no audio selected yet) whose decoder fails
to open, the loop breaks: the result is the state reached so far and
the remaining stream descriptors are never examined, whatever they
are. -/
theorem c4_scan_stops_on_decoder_failure (idx : Nat) (v a : Int)
    (s : StreamDesc) (rest : List StreamDesc)
    (hfail : open_decoder s < 0)
    (hcand : (s.codecType = MediaType.video ∧ v < 0) ∨
             (s.codecType = MediaType.audio ∧ a < 0)) :
    scanGo idx v a (s :: rest) = (v, a) := by
  rcases hcand with hv | ha
  · simp [scanGo, hv, hfail]
  · have hnv : ¬ s.codecType = MediaType.video := by
      rw [ha.1]; intro h; cases h
    simp [scanGo, hnv, ha, hfail]

/-- C4 witness: a first video stream with no registered decoder aborts
the scan even though the second video stream's decoder would open. -/
theorem c4_witness :
    scanGo 0 (-1) (-1)
      [{ codecType := MediaType.video, findOk := false, openOk := true },
       { codecType := MediaType.video, findOk := true, openOk := true }]
      = (-1, -1) :=
  c4_scan_stops_on_decoder_failure 0 (-1) (-1) _ _ (by decide)
    (Or.inl (by exact ⟨rfl, by decide⟩))

end Sample04

namespace Sample04

/-- A packet on an unselected stream index is freed immediately and
nothing else in the loop state changes. -/
theorem loopStep_unrouted (v a : Int) (c : LoopCounters) (e : ReadEvent)
    (h : isRouted v a e = false) :
    loopStep v a c e = { c with pktFreed := c.pktFreed + 1 } := by
  have h1 : ¬ e.streamIndex = v := by
    intro hv; simp [isRouted, hv] at h
  have h2 : ¬ e.streamIndex = a := by
    intro hv; simp [isRouted, hv] at h
  simp [loopStep, h1, h2]

/-- Every pass through the loop body frees the packet exactly once. -/
theorem loopStep_pktFreed (v a : Int) (c : LoopCounters) (e : ReadEvent) :
    (loopStep v a c e).pktFreed = c.pktFreed + 1 := by
  simp only [loopStep]
  split_ifs <;> rfl

/-- The loop body performs one decode call exactly when the packet is
routed. -/
theorem loopStep_decodeCalls (v a : Int) (c : LoopCounters) (e : ReadEvent) :
    (loopStep v a c e).decodeCalls
      = c.decodeCalls + (if isRouted v a e = true then 1 else 0) := by
  by_cases h : isRouted v a e = true
  · have h1 : ¬ (e.streamIndex ≠ v ∧ e.streamIndex ≠ a) := by
      simp only [isRouted, Bool.or_eq_true, decide_eq_true_eq] at h
      tauto
    simp only [loopStep, h1, if_false, h, if_true]
    split_ifs <;> rfl
  · have hf : isRouted v a e = false := by simpa using h
    rw [loopStep_unrouted v a c e hf]
    simp [h]

/-- The loop body performs one timestamp rescale exactly when the
packet is routed. -/
theorem loopStep_rescaleCalls (v a : Int) (c : LoopCounters) (e : ReadEvent) :
    (loopStep v a c e).rescaleCalls
      = c.rescaleCalls + (if isRouted v a e = true then 1 else 0) := by
  by_cases h : isRouted v a e = true
  · have h1 : ¬ (e.streamIndex ≠ v ∧ e.streamIndex ≠ a) := by
      simp only [isRouted, Bool.or_eq_true, decide_eq_true_eq] at h
      tauto
    simp only [loopStep, h1, if_false, h, if_true]
    split_ifs <;> rfl
  · have hf : isRouted v a e = false := by simpa using h
    rw [loopStep_unrouted v a c e hf]
    simp [h]

/-- Decode and rescale call counts over a whole run of the loop equal
the number of routed packets among the reads before end-of-stream. -/
theorem decodeLoop_counts (v a : Int) :
    ∀ (evs : List ReadEvent) (c : LoopCounters),
      (decodeLoop v a c evs).1.decodeCalls
        = c.decodeCalls + (evs.takeWhile notEofEv).countP (isRouted v a) ∧
      (decodeLoop v a c evs).1.rescaleCalls
        = c.rescaleCalls + (evs.takeWhile notEofEv).countP (isRouted v a) := by
  intro evs
  induction evs with
  | nil => intro c; simp [decodeLoop]
  | cons e rest ih =>
    intro c
    by_cases h : e.ret = AVERROR_EOF
    · have hnot : notEofEv e = false := by simp [notEofEv, h]
      simp [decodeLoop, h, List.takeWhile_cons, hnot]
    · have hyes : notEofEv e = true := by simp [notEofEv, h]
      have hd := loopStep_decodeCalls v a c e
      have hr := loopStep_rescaleCalls v a c e
      have hih := ih (loopStep v a c e)
      constructor
      · simp only [decodeLoop, if_neg h, List.takeWhile_cons, hyes, if_true,
          List.countP_cons, hih.1, hd]
        by_cases hrt : isRouted v a e = true
        · simp [hrt]; omega
        · simp [hrt]
      · simp only [decodeLoop, if_neg h, List.takeWhile_cons, hyes, if_true,
          List.countP_cons, hih.2, hr]
        by_cases hrt : isRouted v a e = true
        · simp [hrt]; omega
        · simp [hrt]

end Sample04

namespace Sample04

/-- C5: a packet whose stream index matches neither selected index is
freed immediately — the loop body changes nothing but the free counter,
so it never reaches the rescale or the decode call — and over a whole
run the decode-call count (and the rescale count) equals the number of
packets read whose stream index is one of the two selected indices. -/
theorem c5_routing_discards_unselected (v a : Int) (events : List ReadEvent) :
    (decodeLoop v a initCounters events).1.decodeCalls
      = (events.takeWhile notEofEv).countP (isRouted v a) ∧
    (decodeLoop v a initCounters events).1.rescaleCalls
      = (events.takeWhile notEofEv).countP (isRouted v a) ∧
    ∀ (c : LoopCounters) (e : ReadEvent), isRouted v a e = false →
      loopStep v a c e = { c with pktFreed := c.pktFreed + 1 } := by
  refine ⟨?_, ?_, fun c e h => loopStep_unrouted v a c e h⟩
  · have h := (decodeLoop_counts v a events initCounters).1
    simpa [initCounters] using h
  · have h := (decodeLoop_counts v a events initCounters).2
    simpa [initCounters] using h

/-- C5 witness: with video index 0 and audio index 1, a run seeing one
packet on stream 2, one on stream 0 and then end-of-stream performs
exactly one decode call, and the stream-2 packet only gets freed. -/
theorem c5_witness :
    (decodeLoop 0 1 initCounters [unroutedEvent, videoPktEvent, eofEvent]).1.decodeCalls
      = (([unroutedEvent, videoPktEvent, eofEvent].takeWhile notEofEv).countP (isRouted 0 1)) ∧
    loopStep 0 1 initCounters unroutedEvent
      = { initCounters with pktFreed := initCounters.pktFreed + 1 } := by
  constructor
  · exact (c5_routing_discards_unselected 0 1 [unroutedEvent, videoPktEvent, eofEvent]).1
  · exact (c5_routing_discards_unselected 0 1 [unroutedEvent, videoPktEvent, eofEvent]).2.2
      initCounters unroutedEvent (by decide)

/-- C6: when the decode call for a routed packet returns a negative
value, the loop body only counts the rescale, the decode and the packet
free — no report block is printed and no frame is consumed — and the
loop goes on with the remaining reads; the packet is freed on every
outcome of the decode. -/
theorem c6_decode_error_is_nonfatal (v a : Int) (c : LoopCounters) (e : ReadEvent)
    (rest : List ReadEvent)
    (hne : ¬ e.ret = AVERROR_EOF)
    (hr : e.streamIndex = v ∨ e.streamIndex = a)
    (herr : e.decodeRet < 0) :
    decodeLoop v a c (e :: rest) = decodeLoop v a (loopStep v a c e) rest ∧
    loopStep v a c e
      = { c with rescaleCalls := c.rescaleCalls + 1
                 decodeCalls := c.decodeCalls + 1
                 pktFreed := c.pktFreed + 1 } ∧
    ∀ (d : LoopCounters) (f : ReadEvent), (loopStep v a d f).pktFreed = d.pktFreed + 1 := by
  refine ⟨by simp [decodeLoop, hne], ?_, fun d f => loopStep_pktFreed v a d f⟩
  have h1 : ¬ (e.streamIndex ≠ v ∧ e.streamIndex ≠ a) := by tauto
  have h2 : ¬ (0 ≤ e.decodeRet ∧ e.gotFrame = true) := by
    intro hc
    omega
  simp [loopStep, h1, h2]

/-- C6 witness: a failing decode (-22) of a routed packet counts one
decode, one rescale and one free, prints nothing, and the loop
continues with the end-of-stream read. -/
theorem c6_witness :
    decodeLoop 0 1 initCounters (badDecodeEvent :: [eofEvent])
      = decodeLoop 0 1 (loopStep 0 1 initCounters badDecodeEvent) [eofEvent] ∧
    loopStep 0 1 initCounters badDecodeEvent
      = { initCounters with rescaleCalls := initCounters.rescaleCalls + 1
                            decodeCalls := initCounters.decodeCalls + 1
                            pktFreed := initCounters.pktFreed + 1 } := by
  have h := c6_decode_error_is_nonfatal 0 1 initCounters badDecodeEvent [eofEvent]
    (by decide) (Or.inl (by decide)) (by decide)
  exact ⟨h.1, h.2.1⟩

/-- C9: the loop terminates (with the "End of frame" print) exactly
when some read returns `AVERROR_EOF`; a read whose return value is any
other code — in particular any other negative error — is not checked:
the loop does not end there, and the packet of that read is processed
exactly as a packet from a successful read would be. -/
theorem c9_loop_ends_only_on_eof (v a : Int) :
    (∀ (evs : List ReadEvent) (c : LoopCounters),
        (decodeLoop v a c evs).2 = true ↔
          evs.any (fun e => decide (e.ret = AVERROR_EOF)) = true) ∧
    (∀ (c : LoopCounters) (e : ReadEvent) (rest : List ReadEvent) (r : Int),
        r < 0 → ¬ r = AVERROR_EOF →
        decodeLoop v a c ({ e with ret := r } :: rest)
          = decodeLoop v a (loopStep v a c e) rest) ∧
    (∀ (c : LoopCounters) (e : ReadEvent) (r : Int),
        loopStep v a c { e with ret := r } = loopStep v a c e) := by
  refine ⟨?_, ?_, fun c e r => rfl⟩
  · intro evs
    induction evs with
    | nil => intro c; simp [decodeLoop]
    | cons e rest ih =>
      intro c
      by_cases h : e.ret = AVERROR_EOF
      · simp [decodeLoop, h]
      · simp [decodeLoop, h, ih]
  · intro c e rest r hneg hne
    have h1 : decodeLoop v a c ({ e with ret := r } :: rest)
        = decodeLoop v a (loopStep v a c { e with ret := r }) rest := by
      simp [decodeLoop, hne]
    exact h1

/-- C9 witness: a read returning -5 with a decodable video packet does
not end the loop; the run still ends at the following end-of-stream
read, and the -5 packet is decoded like a normal one. -/
theorem c9_witness :
    decodeLoop 0 1 initCounters ({ videoPktEvent with ret := -5 } :: [eofEvent])
      = decodeLoop 0 1 (loopStep 0 1 initCounters videoPktEvent) [eofEvent] ∧
    ((decodeLoop 0 1 initCounters [badReadEvent, eofEvent]).2 = true ↔
      [badReadEvent, eofEvent].any (fun e => decide (e.ret = AVERROR_EOF)) = true) := by
  constructor
  · exact (c9_loop_ends_only_on_eof 0 1).2.1 initCounters videoPktEvent [eofEvent] (-5)
      (by decide) (by decide)
  · exact (c9_loop_ends_only_on_eof 0 1).1 [badReadEvent, eofEvent] initCounters

end Sample04

namespace Sample04

/-- A non-failing `open_decoder` call returned 0. -/
theorem open_decoder_eq_zero (s : StreamDesc) (h : ¬ open_decoder s < 0) :
    open_decoder s = 0 := by
  unfold open_decoder at h ⊢
  split_ifs at h ⊢ with h1 h2
  · omega
  · omega
  · rfl

/-- Once the video index is nonnegative the scan never changes it. -/
theorem scanGo_v_frozen (l : List StreamDesc) :
    ∀ (idx : Nat) (v a : Int), 0 ≤ v → (scanGo idx v a l).1 = v := by
  induction l with
  | nil => intro idx v a hv; simp [scanGo]
  | cons s rest ih =>
    intro idx v a hv
    have hnv : ¬ (s.codecType = MediaType.video ∧ v < 0) :=
      fun h => absurd hv (not_le.mpr h.2)
    simp only [scanGo, if_neg hnv]
    by_cases ha : s.codecType = MediaType.audio ∧ a < 0
    · rw [if_pos ha]
      by_cases hf : open_decoder s < 0
      · rw [if_pos hf]
      · rw [if_neg hf]; exact ih _ v _ hv
    · rw [if_neg ha]; exact ih _ v _ hv

/-- Once the audio index is nonnegative the scan never changes it. -/
theorem scanGo_a_frozen (l : List StreamDesc) :
    ∀ (idx : Nat) (v a : Int), 0 ≤ a → (scanGo idx v a l).2 = a := by
  induction l with
  | nil => intro idx v a ha; simp [scanGo]
  | cons s rest ih =>
    intro idx v a ha
    have hna : ¬ (s.codecType = MediaType.audio ∧ a < 0) :=
      fun h => absurd ha (not_le.mpr h.2)
    simp only [scanGo]
    by_cases hv : s.codecType = MediaType.video ∧ v < 0
    · rw [if_pos hv]
      by_cases hf : open_decoder s < 0
      · rw [if_pos hf]
      · rw [if_neg hf]; exact ih _ _ a ha
    · rw [if_neg hv, if_neg hna]; exact ih _ _ a ha

/-- When the scan changed the video index, it selected the first video
stream of the list, and that stream's decoder opened. -/
theorem scanGo_v_spec (l : List StreamDesc) :
    ∀ (idx : Nat) (v a : Int), (scanGo idx v a l).1 ≠ v →
      ∃ k, ∃ hk : k < l.length,
        (scanGo idx v a l).1 = ((idx + k : Nat) : Int) ∧
        (l.get ⟨k, hk⟩).codecType = MediaType.video ∧
        open_decoder (l.get ⟨k, hk⟩) = 0 ∧
        ∀ j (hj : j < l.length), j < k →
          (l.get ⟨j, hj⟩).codecType ≠ MediaType.video := by
  induction l with
  | nil => intro idx v a h; exact absurd rfl h
  | cons s rest ih =>
    intro idx v a h
    by_cases hv : s.codecType = MediaType.video ∧ v < 0
    · by_cases hf : open_decoder s < 0
      · exfalso
        apply h
        simp [scanGo, hv, hf]
      · have heq : scanGo idx v a (s :: rest)
            = scanGo (idx + 1) ((idx : Int)) a rest := by
          simp [scanGo, hv, hf]
        have hres : (scanGo idx v a (s :: rest)).1 = (idx : Int) := by
          rw [heq]
          exact scanGo_v_frozen rest _ _ _ (by omega)
        refine ⟨0, by simp, by simpa using hres, hv.1,
          open_decoder_eq_zero s hf, ?_⟩
        intro j hj hj0
        omega
    · by_cases ha : s.codecType = MediaType.audio ∧ a < 0
      · by_cases hf : open_decoder s < 0
        · exfalso
          apply h
          simp [scanGo, hv, ha, hf]
        · have heq : scanGo idx v a (s :: rest)
              = scanGo (idx + 1) v ((idx : Int)) rest := by
            simp [scanGo, hv, ha, hf]
          rw [heq] at h ⊢
          obtain ⟨k, hk, h1, h2, h3, h4⟩ := ih (idx + 1) v ((idx : Int)) h
          refine ⟨k + 1, by simp only [List.length_cons]; omega, ?_, h2, h3, ?_⟩
          · rw [h1]; congr 1; omega
          · intro j hj hjk
            cases j with
            | zero =>
              intro hc
              have hc2 : s.codecType = MediaType.video := hc
              rw [ha.1] at hc2
              cases hc2
            | succ n =>
              exact h4 n (by simp only [List.length_cons] at hj; omega) (by omega)
      · have heq : scanGo idx v a (s :: rest) = scanGo (idx + 1) v a rest := by
          simp [scanGo, hv, ha]
        rw [heq] at h ⊢
        obtain ⟨k, hk, h1, h2, h3, h4⟩ := ih (idx + 1) v a h
        refine ⟨k + 1, by simp only [List.length_cons]; omega, ?_, h2, h3, ?_⟩
        · rw [h1]; congr 1; omega
        · intro j hj hjk
          cases j with
          | zero =>
            intro hc
            have h0v : 0 ≤ v := by
              by_contra hneg
              exact hv ⟨hc, by omega⟩
            exact h (scanGo_v_frozen rest _ _ _ h0v)
          | succ n =>
            exact h4 n (by simp only [List.length_cons] at hj; omega) (by omega)

/-- When the scan changed the audio index, it selected the first audio
stream of the list, and that stream's decoder opened. -/
theorem scanGo_a_spec (l : List StreamDesc) :
    ∀ (idx : Nat) (v a : Int), (scanGo idx v a l).2 ≠ a →
      ∃ k, ∃ hk : k < l.length,
        (scanGo idx v a l).2 = ((idx + k : Nat) : Int) ∧
        (l.get ⟨k, hk⟩).codecType = MediaType.audio ∧
        open_decoder (l.get ⟨k, hk⟩) = 0 ∧
        ∀ j (hj : j < l.length), j < k →
          (l.get ⟨j, hj⟩).codecType ≠ MediaType.audio := by
  induction l with
  | nil => intro idx v a h; exact absurd rfl h
  | cons s rest ih =>
    intro idx v a h
    by_cases hv : s.codecType = MediaType.video ∧ v < 0
    · by_cases hf : open_decoder s < 0
      · exfalso
        apply h
        simp [scanGo, hv, hf]
      · have heq : scanGo idx v a (s :: rest)
            = scanGo (idx + 1) ((idx : Int)) a rest := by
          simp [scanGo, hv, hf]
        rw [heq] at h ⊢
        obtain ⟨k, hk, h1, h2, h3, h4⟩ := ih (idx + 1) ((idx : Int)) a h
        refine ⟨k + 1, by simp only [List.length_cons]; omega, ?_, h2, h3, ?_⟩
        · rw [h1]; congr 1; omega
        · intro j hj hjk
          cases j with
          | zero =>
            intro hc
            have hc2 : s.codecType = MediaType.audio := hc
            rw [hv.1] at hc2
            cases hc2
          | succ n =>
            exact h4 n (by simp only [List.length_cons] at hj; omega) (by omega)
    · by_cases ha : s.codecType = MediaType.audio ∧ a < 0
      · by_cases hf : open_decoder s < 0
        · exfalso
          apply h
          simp [scanGo, hv, ha, hf]
        · have heq : scanGo idx v a (s :: rest)
              = scanGo (idx + 1) v ((idx : Int)) rest := by
            simp [scanGo, hv, ha, hf]
          have hres : (scanGo idx v a (s :: rest)).2 = (idx : Int) := by
            rw [heq]
            exact scanGo_a_frozen rest _ _ _ (by omega)
          refine ⟨0, by simp, by simpa using hres, ha.1,
            open_decoder_eq_zero s hf, ?_⟩
          intro j hj hj0
          omega
      · have heq : scanGo idx v a (s :: rest) = scanGo (idx + 1) v a rest := by
          simp [scanGo, hv, ha]
        rw [heq] at h ⊢
        obtain ⟨k, hk, h1, h2, h3, h4⟩ := ih (idx + 1) v a h
        refine ⟨k + 1, by simp only [List.length_cons]; omega, ?_, h2, h3, ?_⟩
        · rw [h1]; congr 1; omega
        · intro j hj hjk
          cases j with
          | zero =>
            intro hc
            have h0a : 0 ≤ a := by
              by_contra hneg
              exact ha ⟨hc, by omega⟩
            exact h (scanGo_a_frozen rest _ _ _ h0a)
          | succ n =>
            exact h4 n (by simp only [List.length_cons] at hj; omega) (by omega)

/-- If the list holds no video stream the video index keeps its
value. -/
theorem scanGo_no_video (l : List StreamDesc) :
    ∀ (idx : Nat) (v a : Int),
      (∀ s ∈ l, s.codecType ≠ MediaType.video) → (scanGo idx v a l).1 = v := by
  induction l with
  | nil => intro idx v a _; simp [scanGo]
  | cons s rest ih =>
    intro idx v a hns
    have hsv : ¬ s.codecType = MediaType.video := hns s (by simp)
    have hnv : ¬ (s.codecType = MediaType.video ∧ v < 0) := fun h => hsv h.1
    simp only [scanGo, if_neg hnv]
    have hrest : ∀ t ∈ rest, t.codecType ≠ MediaType.video :=
      fun t ht => hns t (List.mem_cons_of_mem s ht)
    by_cases ha : s.codecType = MediaType.audio ∧ a < 0
    · rw [if_pos ha]
      by_cases hf : open_decoder s < 0
      · rw [if_pos hf]
      · rw [if_neg hf]; exact ih _ _ _ hrest
    · rw [if_neg ha]; exact ih _ _ _ hrest

/-- If the list holds no audio stream the audio index keeps its
value. -/
theorem scanGo_no_audio (l : List StreamDesc) :
    ∀ (idx : Nat) (v a : Int),
      (∀ s ∈ l, s.codecType ≠ MediaType.audio) → (scanGo idx v a l).2 = a := by
  induction l with
  | nil => intro idx v a _; simp [scanGo]
  | cons s rest ih =>
    intro idx v a hns
    have hsa : ¬ s.codecType = MediaType.audio := hns s (by simp)
    have hna : ¬ (s.codecType = MediaType.audio ∧ a < 0) := fun h => hsa h.1
    simp only [scanGo]
    have hrest : ∀ t ∈ rest, t.codecType ≠ MediaType.audio :=
      fun t ht => hns t (List.mem_cons_of_mem s ht)
    by_cases hv : s.codecType = MediaType.video ∧ v < 0
    · rw [if_pos hv]
      by_cases hf : open_decoder s < 0
      · rw [if_pos hf]
      · rw [if_neg hf]; exact ih _ _ _ hrest
    · rw [if_neg hv, if_neg hna]; exact ih _ _ _ hrest

/-- The selected video index is -1 or an in-range stream index. -/
theorem scanStreams_v_range (streams : List StreamDesc) :
    (scanStreams streams).1 = -1 ∨
      ∃ k, k < streams.length ∧ (scanStreams streams).1 = (k : Int) := by
  by_cases h : (scanStreams streams).1 = -1
  · exact Or.inl h
  · obtain ⟨k, hk, h1, _, _, _⟩ := scanGo_v_spec streams 0 (-1) (-1) h
    exact Or.inr ⟨k, hk, by simpa using h1⟩

/-- The selected audio index is -1 or an in-range stream index. -/
theorem scanStreams_a_range (streams : List StreamDesc) :
    (scanStreams streams).2 = -1 ∨
      ∃ k, k < streams.length ∧ (scanStreams streams).2 = (k : Int) := by
  by_cases h : (scanStreams streams).2 = -1
  · exact Or.inl h
  · obtain ⟨k, hk, h1, _, _, _⟩ := scanGo_a_spec streams 0 (-1) (-1) h
    exact Or.inr ⟨k, hk, by simpa using h1⟩

end Sample04

namespace Sample04

/-- For loop indices below 4294967295 the `unsigned int` comparison of
line 114 agrees with plain equality against a selected index that is -1
or an in-range stream index; in particular -1 matches no loop index. -/
theorem uintEq_within (i : Nat) (hi : (i : Int) < 4294967295) (x : Int)
    (hx : x = -1 ∨ ∃ k : Nat, x = (k : Int) ∧ (k : Int) < 4294967296) :
    uintEq i x = true ↔ (i : Int) = x := by
  rcases hx with rfl | ⟨k, rfl, hk⟩
  · simp only [uintEq, decide_eq_true_eq, UINT_MOD]
    constructor
    · intro h
      exfalso
      omega
    · intro h
      exfalso
      omega
  · simp only [uintEq, decide_eq_true_eq, UINT_MOD]
    constructor
    · intro h
      omega
    · intro h
      omega

/-- C8: at most one video and at most one audio index are ever
selected; a nonnegative selected index names the first stream of its
kind in container order, and its decoder opened (so it is also the
first of its kind whose decoder opened); the index stays -1 when the
container holds no stream of that kind; and once a selected index is
nonnegative the rest of the scan never modifies it. -/
theorem c8_selection_invariants (streams : List StreamDesc) :
    (0 ≤ (scanStreams streams).1 →
      ∃ k, ∃ hk : k < streams.length,
        (scanStreams streams).1 = (k : Int) ∧
        (streams.get ⟨k, hk⟩).codecType = MediaType.video ∧
        open_decoder (streams.get ⟨k, hk⟩) = 0 ∧
        ∀ j (hj : j < streams.length), j < k →
          ¬ ((streams.get ⟨j, hj⟩).codecType = MediaType.video ∧
             open_decoder (streams.get ⟨j, hj⟩) = 0)) ∧
    (0 ≤ (scanStreams streams).2 →
      ∃ k, ∃ hk : k < streams.length,
        (scanStreams streams).2 = (k : Int) ∧
        (streams.get ⟨k, hk⟩).codecType = MediaType.audio ∧
        open_decoder (streams.get ⟨k, hk⟩) = 0 ∧
        ∀ j (hj : j < streams.length), j < k →
          ¬ ((streams.get ⟨j, hj⟩).codecType = MediaType.audio ∧
             open_decoder (streams.get ⟨j, hj⟩) = 0)) ∧
    ((∀ s ∈ streams, s.codecType ≠ MediaType.video) →
      (scanStreams streams).1 = -1) ∧
    ((∀ s ∈ streams, s.codecType ≠ MediaType.audio) →
      (scanStreams streams).2 = -1) ∧
    (∀ (idx : Nat) (v a : Int) (l : List StreamDesc),
      0 ≤ v → (scanGo idx v a l).1 = v) ∧
    (∀ (idx : Nat) (v a : Int) (l : List StreamDesc),
      0 ≤ a → (scanGo idx v a l).2 = a) := by
  refine ⟨?_, ?_, ?_, ?_, ?_, ?_⟩
  · intro h0
    have hne : (scanStreams streams).1 ≠ -1 := by omega
    obtain ⟨k, hk, h1, h2, h3, h4⟩ := scanGo_v_spec streams 0 (-1) (-1) hne
    exact ⟨k, hk, by simpa using h1, h2, h3,
      fun j hj hjk hc => h4 j hj hjk hc.1⟩
  · intro h0
    have hne : (scanStreams streams).2 ≠ -1 := by omega
    obtain ⟨k, hk, h1, h2, h3, h4⟩ := scanGo_a_spec streams 0 (-1) (-1) hne
    exact ⟨k, hk, by simpa using h1, h2, h3,
      fun j hj hjk hc => h4 j hj hjk hc.1⟩
  · intro hns
    exact scanGo_no_video streams 0 (-1) (-1) hns
  · intro hns
    exact scanGo_no_audio streams 0 (-1) (-1) hns
  · intro idx v a l hv
    exact scanGo_v_frozen l idx v a hv
  · intro idx v a l ha
    exact scanGo_a_frozen l idx v a ha

/-- C8 witness: on an audio stream followed by a video stream the scan
yields indices (1, 0), and the selected video index 1 is the first
video stream with a working decoder. -/
theorem c8_witness :
    scanStreams c8Streams = (1, 0) ∧
    (∃ k, ∃ hk : k < c8Streams.length,
      (scanStreams c8Streams).1 = (k : Int) ∧
      (c8Streams.get ⟨k, hk⟩).codecType = MediaType.video ∧
      open_decoder (c8Streams.get ⟨k, hk⟩) = 0 ∧
      ∀ j (hj : j < c8Streams.length), j < k →
        ¬ ((c8Streams.get ⟨j, hj⟩).codecType = MediaType.video ∧
           open_decoder (c8Streams.get ⟨j, hj⟩) = 0)) := by
  constructor
  · decide
  · exact (c8_selection_invariants c8Streams).1 (by decide)

/-- C10: a nonnegative selected index always names a stream of its
kind whose decoder open succeeded, and the release routine closes a
decoder exactly for the container's stream indices that equal a
selected index — a -1 selected index, compared as `unsigned int`
against loop indices below the stream count, matches none of them. -/
theorem c10_release_closes_selected (streams : List StreamDesc)
    (hnb : streams.length < 4294967296) :
    (0 ≤ (scanStreams streams).1 →
      ∃ k, ∃ hk : k < streams.length,
        (scanStreams streams).1 = (k : Int) ∧
        (streams.get ⟨k, hk⟩).codecType = MediaType.video ∧
        open_decoder (streams.get ⟨k, hk⟩) = 0) ∧
    (0 ≤ (scanStreams streams).2 →
      ∃ k, ∃ hk : k < streams.length,
        (scanStreams streams).2 = (k : Int) ∧
        (streams.get ⟨k, hk⟩).codecType = MediaType.audio ∧
        open_decoder (streams.get ⟨k, hk⟩) = 0) ∧
    (∀ i : Nat,
      i ∈ (release true streams.length
            (scanStreams streams).1 (scanStreams streams).2).closedDecoders ↔
      (i < streams.length ∧
        ((i : Int) = (scanStreams streams).1 ∨
         (i : Int) = (scanStreams streams).2))) := by
  have hvr : (scanStreams streams).1 = -1 ∨
      ∃ k : Nat, (scanStreams streams).1 = (k : Int) ∧ (k : Int) < 4294967296 := by
    rcases scanStreams_v_range streams with h | ⟨k, hk, h⟩
    · exact Or.inl h
    · exact Or.inr ⟨k, h, by omega⟩
  have har : (scanStreams streams).2 = -1 ∨
      ∃ k : Nat, (scanStreams streams).2 = (k : Int) ∧ (k : Int) < 4294967296 := by
    rcases scanStreams_a_range streams with h | ⟨k, hk, h⟩
    · exact Or.inl h
    · exact Or.inr ⟨k, h, by omega⟩
  refine ⟨?_, ?_, ?_⟩
  · intro h0
    have hne : (scanStreams streams).1 ≠ -1 := by omega
    obtain ⟨k, hk, h1, h2, h3, _⟩ := scanGo_v_spec streams 0 (-1) (-1) hne
    exact ⟨k, hk, by simpa using h1, h2, h3⟩
  · intro h0
    have hne : (scanStreams streams).2 ≠ -1 := by omega
    obtain ⟨k, hk, h1, h2, h3, _⟩ := scanGo_a_spec streams 0 (-1) (-1) hne
    exact ⟨k, hk, by simpa using h1, h2, h3⟩
  · intro i
    have hrel : (release true streams.length
          (scanStreams streams).1 (scanStreams streams).2).closedDecoders
        = (List.range streams.length).filter
            (fun j => uintEq j (scanStreams streams).1 ||
                      uintEq j (scanStreams streams).2) := rfl
    rw [hrel]
    simp only [List.mem_filter, List.mem_range, Bool.or_eq_true]
    constructor
    · rintro ⟨hmem, hor⟩
      have hi : (i : Int) < 4294967295 := by omega
      refine ⟨hmem, ?_⟩
      rcases hor with h | h
      · exact Or.inl ((uintEq_within i hi _ hvr).mp h)
      · exact Or.inr ((uintEq_within i hi _ har).mp h)
    · rintro ⟨hlt, hor⟩
      have hi : (i : Int) < 4294967295 := by omega
      refine ⟨hlt, ?_⟩
      rcases hor with h | h
      · exact Or.inl ((uintEq_within i hi _ hvr).mpr h)
      · exact Or.inr ((uintEq_within i hi _ har).mpr h)

/-- C10 witness: on the audio-then-video container, both decoders are
exactly the ones closed by release, and the selected video index names
the video stream. -/
theorem c10_witness :
    (∃ k, ∃ hk : k < c8Streams.length,
      (scanStreams c8Streams).1 = (k : Int) ∧
      (c8Streams.get ⟨k, hk⟩).codecType = MediaType.video ∧
      open_decoder (c8Streams.get ⟨k, hk⟩) = 0) ∧
    (1 ∈ (release true c8Streams.length
          (scanStreams c8Streams).1 (scanStreams c8Streams).2).closedDecoders ↔
      (1 < c8Streams.length ∧
        (((1 : Nat) : Int) = (scanStreams c8Streams).1 ∨
         ((1 : Nat) : Int) = (scanStreams c8Streams).2))) := by
  constructor
  · exact (c10_release_closes_selected c8Streams (by decide)).1 (by decide)
  · exact (c10_release_closes_selected c8Streams (by decide)).2.2 1

end Sample04

namespace Sample04

/-- C3: every terminating run that passed the argument check — the
normal end-of-stream path and each early error path (open failure,
probe failure, the no-stream path, frame-allocation failure) — calls
the release routine exactly once; a release on a never-opened container
(NULL `fmt_ctx`, as after an open failure) does nothing. -/
theorem c3_release_called_once (inp : RunInput)
    (harg : inp.hasArg = true)
    (_hterm : (runMain inp).completed = true) :
    (runMain inp).releaseCalls = 1 ∧
    (∀ (n : Nat) (v a : Int), release false n v a = noRelease) ∧
    (open_input inp.openOk inp.probeOk inp.streams = OpenResult.openFail →
      (runMain inp).releaseEff = noRelease) := by
  refine ⟨?_, fun n v a => rfl, ?_⟩
  · simp only [runMain, harg]
    norm_num
    split
    · rfl
    · rfl
    · rfl
    · split
      · rfl
      · rfl
  · intro hop
    simp [runMain, harg, hop]
    rfl

/-- C3 witness: a run whose container open fails releases exactly once
and that release is a no-op. -/
theorem c3_witness :
    (runMain c3Input).releaseCalls = 1 ∧ (runMain c3Input).releaseEff = noRelease := by
  have h := c3_release_called_once c3Input rfl (by decide)
  exact ⟨h.1, h.2.2 (by decide)⟩

/-- C7 counterexample to "every fatal setup error prints a message":
in this run `open_input` succeeds (an audio stream is selected, so the
line-97 test passes), `av_frame_alloc` fails — a fatal setup error —
and the run ends with exit status 0 having printed nothing at all. -/
theorem c7_counterexample :
    open_input c7Input.openOk c7Input.probeOk c7Input.streams = OpenResult.ok (-1) 0 ∧
    c7Input.frameAllocOk = false ∧
    (runMain c7Input).output = [] ∧
    (runMain c7Input).exitCode = 0 := by
  decide

/-- C7 amended: the exit status is 0 on every terminating execution
path, including the missing-argument path, and every fatal setup error
except frame-allocation failure prints its message to standard output
before teardown; the frame-allocation failure path proceeds to teardown
and exits 0 without printing anything. -/
theorem c7_exit_zero_and_error_messages (inp : RunInput)
    (_hterm : (runMain inp).completed = true) :
    (runMain inp).exitCode = 0 ∧
    (inp.hasArg = false → (runMain inp).output = [Line.usage]) ∧
    (inp.hasArg = true →
      (open_input inp.openOk inp.probeOk inp.streams = OpenResult.openFail →
        (runMain inp).output = [Line.couldNotOpen]) ∧
      (open_input inp.openOk inp.probeOk inp.streams = OpenResult.probeFail →
        (runMain inp).output = [Line.failedRetrieveInfo]) ∧
      (∀ v a, open_input inp.openOk inp.probeOk inp.streams = OpenResult.noStream v a →
        (runMain inp).output = [Line.failedRetrieveInfo]) ∧
      (∀ v a, open_input inp.openOk inp.probeOk inp.streams = OpenResult.ok v a →
        inp.frameAllocOk = false → (runMain inp).output = [])) := by
  refine ⟨?_, ?_, ?_⟩
  · by_cases harg : inp.hasArg = true
    · simp only [runMain, harg]
      norm_num
      split
      · rfl
      · rfl
      · rfl
      · split
        · rfl
        · rfl
    · have harg2 : inp.hasArg = false := by
        cases h : inp.hasArg
        · rfl
        · exact absurd h harg
      simp [runMain, harg2]
  · intro harg2
    simp [runMain, harg2]
  · intro harg
    refine ⟨?_, ?_, ?_, ?_⟩
    · intro hop
      simp [runMain, harg, hop]
    · intro hop
      simp [runMain, harg, hop]
    · intro v a hop
      simp [runMain, harg, hop]
    · intro v a hop hfa
      simp [runMain, harg, hop, hfa]

/-- C7 witness: the open-failure run prints its message and exits 0. -/
theorem c7_witness :
    (runMain c3Input).exitCode = 0 ∧
    (runMain c3Input).output = [Line.couldNotOpen] := by
  have h := c7_exit_zero_and_error_messages c3Input (by decide)
  exact ⟨h.1, (h.2.2 rfl).1 (by decide)⟩

end Sample04
